import Mathlib

/-!
Verification development for the dynamic-configuration and control-plane
subsystem of giganto (source files: src/settings.rs and
src/graphql/status.rs).

The Rust code is shallowly embedded as executable Lean definitions:

* machine integers become `Fin`/subtypes of `Int` carrying the Rust type
  range (no arithmetic is ever performed on them by the embedded code);
* `std::net::SocketAddr` is embedded as the fragment of the address space
  the repository uses (IPv4 addresses plus the IPv6 unspecified address
  `[::]`, the form appearing in the default configuration), together with
  its `Display` printing and `FromStr` parsing at character-list level;
* `std::time::Duration` together with `humantime::format_duration` and
  `humantime::parse_duration` (the serializer the `retention` field uses
  through `humantime_serde`) are embedded at character-list level;
* TOML text is embedded at the table level: a draft or serialized
  configuration is a list of key/value pairs with string, integer, array
  and table values.  The concrete-syntax layer (rendering a table to TOML
  text and parsing it back), which the `toml` crate guarantees to be
  inverse for the values produced here, is the identity in the embedding.
  String values that the repository itself parses (socket addresses,
  durations) are kept as genuine strings and parsed character by
  character, since that parsing is what the claims are about;
* fallible Rust functions return `Except String`.
-/

namespace Giganto

/-! ## Decimal digit printing and parsing

Rust prints the numeric components of socket addresses and durations with
the standard base-10 `Display`, and parses them back digit by digit.
-/

/-- The character for a single decimal digit. -/
def digitChar (d : Nat) : Char := Char.ofNat (48 + d)

/-- Base-10 rendering with explicit recursion fuel, so the definition is
structural and evaluates inside the kernel. -/
def natDigitsGo : Nat → Nat → List Char
  | 0, _ => []
  | fuel + 1, n =>
    if n < 10 then [digitChar n]
    else natDigitsGo fuel (n / 10) ++ [digitChar (n % 10)]

/-- Base-10 rendering of a natural number, most significant digit first,
as Rust `Display` for unsigned integers prints it. -/
def natDigits (n : Nat) : List Char := natDigitsGo (n + 1) n

/-- Accumulating base-10 reading of a digit string, as Rust numeric
parsing folds digits into a value. -/
def charsToNatAcc (acc : Nat) : List Char → Nat
  | [] => acc
  | c :: cs => charsToNatAcc (acc * 10 + (c.toNat - 48)) cs

theorem digitChar_toNat {d : Nat} (h : d < 10) : (digitChar d).toNat - 48 = d := by
  interval_cases d <;> decide

theorem digitChar_isDigit {d : Nat} (h : d < 10) : (digitChar d).isDigit = true := by
  interval_cases d <;> decide

theorem natDigitsGo_fuel (fuel fuel' n : Nat) (h : n < fuel) (h' : n < fuel') :
    natDigitsGo fuel n = natDigitsGo fuel' n := by
  induction fuel generalizing fuel' n with
  | zero => omega
  | succ fuel ih =>
    match fuel', h' with
    | fuel' + 1, h' =>
      show (if n < 10 then _ else _) = (if n < 10 then _ else _)
      by_cases h10 : n < 10
      · simp [h10]
      · simp only [if_neg h10]
        rw [ih fuel' (n / 10) (by omega) (by omega)]

theorem natDigits_eq (n : Nat) :
    natDigits n = if n < 10 then [digitChar n]
      else natDigits (n / 10) ++ [digitChar (n % 10)] := by
  show natDigitsGo (n + 1) n = _
  match n with
  | 0 => rfl
  | n + 1 =>
    show (if _ then _ else _) = _
    by_cases h10 : n + 1 < 10
    · simp [h10]
    · simp only [if_neg h10]
      rw [natDigitsGo_fuel (n + 1) ((n + 1) / 10 + 1) ((n + 1) / 10) (by omega) (by omega)]
      rfl

theorem natDigits_ne_nil (n : Nat) : natDigits n ≠ [] := by
  rw [natDigits_eq]
  split <;> simp

theorem natDigits_all_digits (n : Nat) : ∀ c ∈ natDigits n, c.isDigit = true := by
  induction n using Nat.strong_induction_on with
  | _ n ih =>
    rw [natDigits_eq]
    split
    · intro c hc
      simp only [List.mem_singleton] at hc
      subst hc
      exact digitChar_isDigit (by omega)
    · intro c hc
      rw [List.mem_append] at hc
      rcases hc with hc | hc
      · exact ih (n / 10) (Nat.div_lt_self (by omega) (by omega)) c hc
      · simp only [List.mem_singleton] at hc
        subst hc
        exact digitChar_isDigit (Nat.mod_lt _ (by omega))

theorem charsToNatAcc_nil (acc : Nat) : charsToNatAcc acc [] = acc := rfl

theorem charsToNatAcc_cons (acc : Nat) (c : Char) (cs : List Char) :
    charsToNatAcc acc (c :: cs) = charsToNatAcc (acc * 10 + (c.toNat - 48)) cs := rfl

theorem charsToNatAcc_append (xs : List Char) : ∀ (acc : Nat) (ys : List Char),
    charsToNatAcc acc (xs ++ ys) = charsToNatAcc (charsToNatAcc acc xs) ys := by
  induction xs with
  | nil => intro acc ys; rfl
  | cons c cs ih =>
    intro acc ys
    rw [List.cons_append]
    show charsToNatAcc (acc * 10 + (c.toNat - 48)) (cs ++ ys) = _
    rw [ih]
    rfl

theorem charsToNatAcc_natDigits (n : Nat) :
    ∀ acc, charsToNatAcc acc (natDigits n) = acc * 10 ^ (natDigits n).length + n := by
  induction n using Nat.strong_induction_on with
  | _ n ih =>
    intro acc
    rw [natDigits_eq]
    split
    · rw [charsToNatAcc_cons, charsToNatAcc_nil, digitChar_toNat (by omega : n < 10),
        List.length_singleton, pow_one]
    · rw [charsToNatAcc_append]
      rw [ih (n / 10) (Nat.div_lt_self (by omega) (by omega))]
      rw [charsToNatAcc_cons, charsToNatAcc_nil, List.length_append, List.length_singleton]
      rw [digitChar_toNat (Nat.mod_lt n (by omega) : n % 10 < 10)]
      have hmod : n / 10 * 10 + n % 10 = n := by omega
      calc (acc * 10 ^ (natDigits (n / 10)).length + n / 10) * 10 + n % 10
          = acc * (10 ^ (natDigits (n / 10)).length * 10) + (n / 10 * 10 + n % 10) := by ring
        _ = acc * 10 ^ ((natDigits (n / 10)).length + 1) + n := by rw [hmod, pow_succ]

/-- Reading back a printed number restores it. -/
theorem charsToNat_natDigits (n : Nat) : charsToNatAcc 0 (natDigits n) = n := by
  simp [charsToNatAcc_natDigits]

theorem natDigits_length_le (k : Nat) : ∀ n, n < 10 ^ k → 1 ≤ k → (natDigits n).length ≤ k := by
  induction k with
  | zero => omega
  | succ k ih =>
    intro n hn _
    rw [natDigits_eq]
    split
    · simp
    · rw [List.length_append]
      have h10 : n / 10 < 10 ^ k := by
        rw [Nat.div_lt_iff_lt_mul (by omega)]
        calc n < 10 ^ (k + 1) := hn
        _ = 10 ^ k * 10 := by ring
      have hk : 1 ≤ k := by
        by_contra hk0
        have : k = 0 := by omega
        subst this
        simp only [pow_zero, Nat.lt_one_iff] at h10
        omega
      have := ih (n / 10) h10 hk
      simp only [List.length_singleton]
      omega

theorem natDigits_head_ne_zero (n : Nat) (h : n ≠ 0) : (natDigits n).head? ≠ some '0' := by
  induction n using Nat.strong_induction_on with
  | _ n ih =>
    rw [natDigits_eq]
    split
    · intro hc
      simp only [List.head?_cons, Option.some.injEq] at hc
      have hd : (digitChar n).toNat - 48 = n := digitChar_toNat (by omega)
      rw [hc] at hd
      simp at hd
      omega
    · have hne := natDigits_ne_nil (n / 10)
      intro hc
      rcases hq : natDigits (n / 10) with _ | ⟨c, cs⟩
      · exact hne hq
      · rw [hq] at hc
        simp only [List.cons_append, List.head?_cons, Option.some.injEq] at hc
        have := ih (n / 10) (Nat.div_lt_self (by omega) (by omega)) (by omega)
        rw [hq] at this
        simp only [List.head?_cons] at this
        exact this (by rw [hc])

theorem natDigits_zero : natDigits 0 = ['0'] := by decide

theorem takeWhile_eq_self_of_all {α} (p : α → Bool) :
    ∀ (xs : List α), (∀ c ∈ xs, p c = true) → xs.takeWhile p = xs := by
  intro xs h
  induction xs with
  | nil => rfl
  | cons c cs ih =>
    rw [List.takeWhile_cons_of_pos (h c (by simp))]
    rw [ih (fun x hx => h x (by simp [hx]))]

theorem dropWhile_eq_nil_of_all {α} (p : α → Bool) :
    ∀ (xs : List α), (∀ c ∈ xs, p c = true) → xs.dropWhile p = [] := by
  intro xs h
  induction xs with
  | nil => rfl
  | cons c cs ih =>
    rw [List.dropWhile_cons_of_pos (h c (by simp))]
    rw [ih (fun x hx => h x (by simp [hx]))]

/-! ## Socket addresses

`std::net::SocketAddr`, embedded as the fragment of the address space the
repository exercises: arbitrary IPv4 socket addresses plus the IPv6
unspecified address `[::]` (the only IPv6 form occurring, in the default
endpoints `[::]:38370`, `[::]:38371`, `[::]:8442`).  `Display` printing and
`FromStr` parsing follow the Rust standard library: four octets without
leading zeros, a colon, and a port below 65536.
-/

abbrev U8 := Fin 256
abbrev U16 := Fin 65536
abbrev U32 := Fin 4294967296

inductive IpAddr where
  | v4 (a b c d : U8)
  | v6unspec
deriving DecidableEq

structure SockAddr where
  ip : IpAddr
  port : U16
deriving DecidableEq

/-- `Display` for `SocketAddr`, at character level. -/
def sockAddrChars (s : SockAddr) : List Char :=
  match s.ip with
  | .v4 a b c d =>
      natDigits a.val ++ '.' :: (natDigits b.val ++ '.' :: (natDigits c.val ++ '.' ::
        (natDigits d.val ++ ':' :: natDigits s.port.val)))
  | .v6unspec => '[' :: ':' :: ':' :: ']' :: ':' :: natDigits s.port.val

def printSockAddr (s : SockAddr) : String := String.mk (sockAddrChars s)

/-- One IPv4 octet: a non-empty run of at most three digits, no leading
zero (except the single digit `0`), value below 256.  Mirrors the standard
library `read_number(10, Some(3), false)` followed by the octet bound. -/
def parseOctetAt (cs : List Char) : Option (U8 × List Char) :=
  if h : cs.takeWhile Char.isDigit ≠ [] ∧ (cs.takeWhile Char.isDigit).length ≤ 3 ∧
      ((cs.takeWhile Char.isDigit).head? = some '0' → cs.takeWhile Char.isDigit = ['0']) ∧
      charsToNatAcc 0 (cs.takeWhile Char.isDigit) < 256
  then some (⟨charsToNatAcc 0 (cs.takeWhile Char.isDigit), h.2.2.2⟩, cs.dropWhile Char.isDigit)
  else none

def expectChar (c : Char) : List Char → Option (List Char)
  | [] => none
  | x :: rest => if x = c then some rest else none

/-- The port: the whole remaining input must be digits with value below
65536. -/
def parsePortAll (cs : List Char) : Option U16 :=
  if h : cs.takeWhile Char.isDigit ≠ [] ∧ cs.dropWhile Char.isDigit = [] ∧
      charsToNatAcc 0 (cs.takeWhile Char.isDigit) < 65536
  then some ⟨charsToNatAcc 0 (cs.takeWhile Char.isDigit), h.2.2⟩
  else none

def parseV4Chars (cs : List Char) : Option SockAddr :=
  (parseOctetAt cs).bind fun ar =>
  (expectChar '.' ar.2).bind fun r1 =>
  (parseOctetAt r1).bind fun br =>
  (expectChar '.' br.2).bind fun r2 =>
  (parseOctetAt r2).bind fun cr =>
  (expectChar '.' cr.2).bind fun r3 =>
  (parseOctetAt r3).bind fun dr =>
  (expectChar ':' dr.2).bind fun r4 =>
  (parsePortAll r4).map fun p => { ip := IpAddr.v4 ar.1 br.1 cr.1 dr.1, port := p }

def parseSockAddrChars (cs : List Char) : Option SockAddr :=
  if cs.take 5 = ['[', ':', ':', ']', ':'] then
    (parsePortAll (cs.drop 5)).map fun p => { ip := IpAddr.v6unspec, port := p }
  else parseV4Chars cs

/-- `FromStr` for `SocketAddr` (on the embedded fragment). -/
def parseSockAddr (s : String) : Option SockAddr := parseSockAddrChars s.data

theorem optionBind_some {α β} (a : α) (f : α → Option β) : Option.bind (some a) f = f a := rfl

theorem expectChar_cons_self (c : Char) (rest : List Char) :
    expectChar c (c :: rest) = some rest := by
  show (if c = c then some rest else none) = some rest
  rw [if_pos rfl]

theorem natDigits_head_zero_iff (n : Nat) :
    (natDigits n).head? = some '0' → natDigits n = ['0'] := by
  intro h
  by_cases hn : n = 0
  · subst hn; exact natDigits_zero
  · exact absurd h (natDigits_head_ne_zero n hn)

theorem parseOctetAt_print (a : U8) (c : Char) (rest : List Char) (hc : c.isDigit = false) :
    parseOctetAt (natDigits a.val ++ c :: rest) = some (a, c :: rest) := by
  have hall := natDigits_all_digits a.val
  have htake : (natDigits a.val ++ c :: rest).takeWhile Char.isDigit = natDigits a.val := by
    rw [List.takeWhile_append_of_pos hall, List.takeWhile_cons_of_neg (by simp [hc]),
      List.append_nil]
  have hdrop : (natDigits a.val ++ c :: rest).dropWhile Char.isDigit = c :: rest := by
    rw [List.dropWhile_append_of_pos hall, List.dropWhile_cons_of_neg (by simp [hc])]
  rw [parseOctetAt]
  simp only [htake, hdrop]
  rw [dif_pos ⟨natDigits_ne_nil a.val,
    natDigits_length_le 3 a.val (by have := a.isLt; omega) (by omega),
    natDigits_head_zero_iff a.val,
    by rw [charsToNat_natDigits]; exact a.isLt⟩]
  simp only [Option.some.injEq, Prod.mk.injEq]
  refine ⟨Fin.ext (charsToNat_natDigits a.val), ?_⟩
  try rfl
  try trivial

theorem parsePortAll_print (p : U16) : parsePortAll (natDigits p.val) = some p := by
  have hall := natDigits_all_digits p.val
  rw [parsePortAll]
  simp only [takeWhile_eq_self_of_all Char.isDigit _ hall,
    dropWhile_eq_nil_of_all Char.isDigit _ hall]
  rw [dif_pos ⟨natDigits_ne_nil p.val, by trivial, by rw [charsToNat_natDigits]; exact p.isLt⟩]
  simp only [Option.some.injEq]
  exact Fin.ext (charsToNat_natDigits p.val)

theorem natDigits_head_not_bracket (n : Nat) : (natDigits n).head? ≠ some '[' := by
  rcases hq : natDigits n with _ | ⟨c, cs⟩
  · exact absurd hq (natDigits_ne_nil n)
  · have hc : c.isDigit = true := natDigits_all_digits n c (by rw [hq]; simp)
    simp only [List.head?_cons, ne_eq, Option.some.injEq]
    intro hcb
    rw [hcb] at hc
    exact absurd hc (by decide)

/-- Printing a socket address and parsing it back restores it. -/
theorem parseSockAddr_print (s : SockAddr) : parseSockAddrChars (sockAddrChars s) = some s := by
  rcases s with ⟨ip, p⟩
  rcases ip with ⟨a, b, c, d⟩ | _
  · show parseSockAddrChars (natDigits a.val ++ '.' :: (natDigits b.val ++ '.' ::
      (natDigits c.val ++ '.' :: (natDigits d.val ++ ':' :: natDigits p.val)))) = _
    have hne : (natDigits a.val ++ '.' :: (natDigits b.val ++ '.' :: (natDigits c.val ++ '.' ::
        (natDigits d.val ++ ':' :: natDigits p.val)))).take 5 ≠ ['[', ':', ':', ']', ':'] := by
      rcases hq : natDigits a.val with _ | ⟨c0, cs0⟩
      · exact absurd hq (natDigits_ne_nil a.val)
      have hc : c0.isDigit = true := natDigits_all_digits a.val c0 (by rw [hq]; simp)
      intro heq
      simp only [List.cons_append, List.take_succ_cons, List.cons.injEq] at heq
      rw [heq.1] at hc
      exact absurd hc (by decide)
    rw [parseSockAddrChars, if_neg hne]
    rw [parseV4Chars]
    rw [parseOctetAt_print a '.' _ (by decide), optionBind_some]
    rw [expectChar_cons_self, optionBind_some]
    rw [parseOctetAt_print b '.' _ (by decide), optionBind_some]
    rw [expectChar_cons_self, optionBind_some]
    rw [parseOctetAt_print c '.' _ (by decide), optionBind_some]
    rw [expectChar_cons_self, optionBind_some]
    rw [parseOctetAt_print d ':' _ (by decide), optionBind_some]
    rw [expectChar_cons_self, optionBind_some]
    rw [parsePortAll_print p]
    rfl
  · show parseSockAddrChars ('[' :: ':' :: ':' :: ']' :: ':' :: natDigits p.val) = _
    rw [parseSockAddrChars, if_pos (by simp)]
    simp only [List.drop_succ_cons, List.drop_zero]
    rw [parsePortAll_print p]
    rfl

/-! ## Durations

`std::time::Duration` (seconds plus sub-second nanoseconds, the latter
below 10^9 by the type invariant), together with the `humantime`
formatting and parsing that `humantime_serde` applies to the `retention`
field: `format_duration` decomposes into years (365.25 days), months
(30.44 days), days, hours, minutes, seconds, milliseconds, microseconds
and nanoseconds, printing the non-zero items separated by spaces;
`parse_duration` reads number/unit items and sums them.
-/

structure RDuration where
  secs : Nat
  nanos : Fin 1000000000
deriving DecidableEq

/-- `item_plural` unit spelling: the unit name gains a final `s` when the
value exceeds one. -/
def pluralUnit (base : List Char) (v : Nat) : List Char :=
  if 1 < v then base ++ ['s'] else base

/-- The nine value/unit items of `humantime` duration formatting, in
output order, before zero-valued items are dropped. -/
def durItemsRaw (d : RDuration) : List (Nat × List Char) :=
  [(d.secs / 31557600, pluralUnit ['y', 'e', 'a', 'r'] (d.secs / 31557600)),
   (d.secs % 31557600 / 2630016, pluralUnit ['m', 'o', 'n', 't', 'h']
     (d.secs % 31557600 / 2630016)),
   (d.secs % 31557600 % 2630016 / 86400, pluralUnit ['d', 'a', 'y']
     (d.secs % 31557600 % 2630016 / 86400)),
   (d.secs % 31557600 % 2630016 % 86400 / 3600, ['h']),
   (d.secs % 31557600 % 2630016 % 86400 % 3600 / 60, ['m']),
   (d.secs % 31557600 % 2630016 % 86400 % 60, ['s']),
   (d.nanos.val / 1000000, ['m', 's']),
   (d.nanos.val / 1000 % 1000, ['u', 's']),
   (d.nanos.val % 1000, ['n', 's'])]

def renderItem (i : Nat × List Char) : List Char := natDigits i.1 ++ i.2

/-- Space-separated concatenation of the rendered items (the `started`
flag of the Rust formatter). -/
def joinItems : List (Nat × List Char) → List Char
  | [] => []
  | i :: rest =>
    match rest with
    | [] => renderItem i
    | _ => renderItem i ++ ' ' :: joinItems rest

def formatDurChars (d : RDuration) : List Char :=
  if d.secs = 0 ∧ d.nanos.val = 0 then ['0', 's']
  else joinItems ((durItemsRaw d).filter (fun i => i.1 != 0))

/-- `humantime::format_duration`. -/
def format_duration (d : RDuration) : String := String.mk (formatDurChars d)

/-- The unit table of `humantime::parse_duration`: seconds factor and
nanoseconds factor contributed by one unit of the given spelling. -/
def unitVal (u : List Char) : Option (Nat × Nat) :=
  if u = "nanos".data ∨ u = "nsec".data ∨ u = "ns".data then some (0, 1)
  else if u = "usec".data ∨ u = "us".data then some (0, 1000)
  else if u = "millis".data ∨ u = "msec".data ∨ u = "ms".data then some (0, 1000000)
  else if u = "seconds".data ∨ u = "second".data ∨ u = "secs".data ∨ u = "sec".data ∨
    u = "s".data then some (1, 0)
  else if u = "minutes".data ∨ u = "minute".data ∨ u = "min".data ∨ u = "mins".data ∨
    u = "m".data then some (60, 0)
  else if u = "hours".data ∨ u = "hour".data ∨ u = "hr".data ∨ u = "hrs".data ∨
    u = "h".data then some (3600, 0)
  else if u = "days".data ∨ u = "day".data ∨ u = "d".data then some (86400, 0)
  else if u = "weeks".data ∨ u = "week".data ∨ u = "w".data then some (604800, 0)
  else if u = "months".data ∨ u = "month".data ∨ u = "M".data then some (2630016, 0)
  else if u = "years".data ∨ u = "year".data ∨ u = "y".data then some (31557600, 0)
  else none

/-- The item loop of `humantime::parse_duration`: skip whitespace, read a
digit run, read an alphabetic unit, accumulate, repeat.  The fuel bounds
the number of items and only ever runs out on inputs longer than the
fuel, which the caller excludes. -/
def parseDurItems : Nat → List Char → Nat → Nat → Except String (Nat × Nat)
  | 0, _, _, _ => .error "value too long"
  | fuel + 1, cs, accS, accN =>
    if (cs.dropWhile Char.isWhitespace).isEmpty then .ok (accS, accN)
    else if ((cs.dropWhile Char.isWhitespace).takeWhile Char.isDigit).isEmpty then
      .error "expected a number"
    else
      match unitVal (((cs.dropWhile Char.isWhitespace).dropWhile Char.isDigit).takeWhile
          Char.isAlpha) with
      | none => .error "unknown unit"
      | some sn =>
        parseDurItems fuel
          (((cs.dropWhile Char.isWhitespace).dropWhile Char.isDigit).dropWhile Char.isAlpha)
          (accS + charsToNatAcc 0 ((cs.dropWhile Char.isWhitespace).takeWhile Char.isDigit) * sn.1)
          (accN + charsToNatAcc 0 ((cs.dropWhile Char.isWhitespace).takeWhile Char.isDigit) * sn.2)

/-- `humantime::parse_duration`: at least one item is required, and the
accumulated nanoseconds are normalized into seconds at the end. -/
def parse_duration (s : String) : Except String RDuration :=
  if (s.data.dropWhile Char.isWhitespace).isEmpty then .error "expected a number"
  else
    (parseDurItems (s.data.length + 1) s.data 0 0).map fun sn =>
      ⟨sn.1 + sn.2 / 1000000000, ⟨sn.2 % 1000000000, Nat.mod_lt _ (by omega)⟩⟩

theorem natDigits_mem_digitChar (n : Nat) :
    ∀ c ∈ natDigits n, ∃ d, d < 10 ∧ c = digitChar d := by
  induction n using Nat.strong_induction_on with
  | _ n ih =>
    rw [natDigits_eq]
    split
    · intro c hc
      simp only [List.mem_singleton] at hc
      exact ⟨n, by omega, hc⟩
    · intro c hc
      rw [List.mem_append] at hc
      rcases hc with hc | hc
      · exact ih (n / 10) (Nat.div_lt_self (by omega) (by omega)) c hc
      · simp only [List.mem_singleton] at hc
        exact ⟨n % 10, Nat.mod_lt _ (by omega), hc⟩

theorem natDigits_not_ws (n : Nat) : ∀ c ∈ natDigits n, c.isWhitespace = false := by
  intro c hc
  obtain ⟨d, hd, rfl⟩ := natDigits_mem_digitChar n c hc
  interval_cases d <;> decide

theorem natDigits_isEmpty_false (n : Nat) : (natDigits n).isEmpty = false := by
  rcases hq : natDigits n with _ | ⟨c, cs⟩
  · exact absurd hq (natDigits_ne_nil n)
  · rfl

theorem parseDurItems_step (fuel v : Nat) (c : Char) (u' rest : List Char)
    (accS accN sm nm : Nat)
    (hcd : c.isDigit = false)
    (halpha : ∀ x ∈ c :: u', x.isAlpha = true)
    (huv : unitVal (c :: u') = some (sm, nm))
    (hrest : rest = [] ∨ rest.head? = some ' ') :
    parseDurItems (fuel + 1) (natDigits v ++ ((c :: u') ++ rest)) accS accN =
      parseDurItems fuel rest (accS + v * sm) (accN + v * nm) := by
  have halldig := natDigits_all_digits v
  have h1 : (natDigits v ++ ((c :: u') ++ rest)).dropWhile Char.isWhitespace =
      natDigits v ++ ((c :: u') ++ rest) := by
    rcases hq : natDigits v with _ | ⟨c0, cs0⟩
    · exact absurd hq (natDigits_ne_nil v)
    rw [List.cons_append,
      List.dropWhile_cons_of_neg (by rw [natDigits_not_ws v c0 (by rw [hq]; simp)]; simp)]
  have h2 : (natDigits v ++ ((c :: u') ++ rest)).takeWhile Char.isDigit = natDigits v := by
    rw [List.takeWhile_append_of_pos halldig, List.cons_append,
      List.takeWhile_cons_of_neg (by simp [hcd]), List.append_nil]
  have h3 : (natDigits v ++ ((c :: u') ++ rest)).dropWhile Char.isDigit = (c :: u') ++ rest := by
    rw [List.dropWhile_append_of_pos halldig, List.cons_append,
      List.dropWhile_cons_of_neg (by simp [hcd]), ← List.cons_append]
  have h4 : ((c :: u') ++ rest).takeWhile Char.isAlpha = c :: u' := by
    rw [List.cons_append, List.takeWhile_cons_of_pos (halpha c (by simp)),
      List.takeWhile_append_of_pos (fun x hx => halpha x (by simp [hx]))]
    rcases hrest with hr | hr
    · subst hr; rw [List.takeWhile_nil, List.append_nil]
    · rcases rest with _ | ⟨r0, rest'⟩
      · rw [List.takeWhile_nil, List.append_nil]
      · simp only [List.head?_cons, Option.some.injEq] at hr
        subst hr
        rw [List.takeWhile_cons_of_neg (by decide), List.append_nil]
  have h5 : ((c :: u') ++ rest).dropWhile Char.isAlpha = rest := by
    rw [List.cons_append, List.dropWhile_cons_of_pos (halpha c (by simp)),
      List.dropWhile_append_of_pos (fun x hx => halpha x (by simp [hx]))]
    rcases hrest with hr | hr
    · subst hr; rw [List.dropWhile_nil]
    · rcases rest with _ | ⟨r0, rest'⟩
      · rw [List.dropWhile_nil]
      · simp only [List.head?_cons, Option.some.injEq] at hr
        subst hr
        rw [List.dropWhile_cons_of_neg (by decide)]
  have h6 : (natDigits v ++ ((c :: u') ++ rest)).isEmpty = false := by
    rcases hq : natDigits v with _ | ⟨c0, cs0⟩
    · exact absurd hq (natDigits_ne_nil v)
    · rfl
  simp only [parseDurItems, h1, h2, h3, h4, h5, h6, huv, natDigits_isEmpty_false,
    charsToNat_natDigits, Bool.false_eq_true, if_false]

theorem parseDurItems_ws (fuel : Nat) (cs : List Char) (accS accN : Nat) :
    parseDurItems (fuel + 1) (' ' :: cs) accS accN = parseDurItems (fuel + 1) cs accS accN := by
  simp only [parseDurItems,
    List.dropWhile_cons_of_pos (by decide : Char.isWhitespace ' ' = true)]

/-- Seconds contributed by one parsed item. -/
def itemSecs (i : Nat × List Char) : Nat :=
  match unitVal i.2 with
  | some sn => i.1 * sn.1
  | none => 0

/-- Nanoseconds contributed by one parsed item. -/
def itemNanos (i : Nat × List Char) : Nat :=
  match unitVal i.2 with
  | some sn => i.1 * sn.2
  | none => 0

/-- A unit spelling the parser consumes as one alphabetic token with a
known value. -/
def goodUnit (u : List Char) : Prop :=
  u ≠ [] ∧ u.head?.all (fun c => !c.isDigit) = true ∧ (∀ x ∈ u, x.isAlpha = true) ∧
    (unitVal u).isSome = true

instance (u : List Char) : Decidable (goodUnit u) := by
  unfold goodUnit
  infer_instance

theorem parseDurItems_join (items : List (Nat × List Char)) :
    ∀ fuel accS accN, items.length < fuel → (∀ i ∈ items, goodUnit i.2) →
    parseDurItems fuel (joinItems items) accS accN =
      .ok (accS + (items.map itemSecs).sum, accN + (items.map itemNanos).sum) := by
  induction items with
  | nil =>
    intro fuel accS accN hf _
    match fuel, hf with
    | fuel + 1, _ => simp [parseDurItems, joinItems]
  | cons i rest ih =>
    intro fuel accS accN hf hg
    match fuel, hf with
    | fuel + 1, hf =>
      obtain ⟨hne, hhead, halpha, hsome⟩ := hg i (by simp)
      obtain ⟨c, u', hiu⟩ := List.exists_cons_of_ne_nil hne
      obtain ⟨sn, hsn⟩ := Option.isSome_iff_exists.mp hsome
      have hcd : c.isDigit = false := by
        rw [hiu] at hhead
        simp only [List.head?_cons, Option.all_some, Bool.not_eq_true'] at hhead
        exact hhead
      have halpha' : ∀ x ∈ c :: u', x.isAlpha = true := by
        intro x hx
        exact halpha x (by rw [hiu]; exact hx)
      have huv : unitVal (c :: u') = some (sn.1, sn.2) := by
        rw [← hiu, hsn]
      rcases rest with _ | ⟨j, rest'⟩
      · show parseDurItems (fuel + 1) (renderItem i) accS accN = _
        have hr : renderItem i = natDigits i.1 ++ ((c :: u') ++ []) := by
          rw [renderItem, hiu, List.append_nil]
        rw [hr, parseDurItems_step fuel i.1 c u' [] accS accN sn.1 sn.2 hcd halpha' huv
          (Or.inl rfl)]
        match fuel, hf with
        | fuel + 1, _ =>
          simp only [parseDurItems, List.dropWhile_nil, List.isEmpty_nil, if_true]
          simp [itemSecs, itemNanos, ← hiu, hsn]
      · show parseDurItems (fuel + 1)
          (renderItem i ++ ' ' :: joinItems (j :: rest')) accS accN = _
        have hr : renderItem i ++ ' ' :: joinItems (j :: rest') =
            natDigits i.1 ++ ((c :: u') ++ ' ' :: joinItems (j :: rest')) := by
          rw [renderItem, hiu, List.append_assoc]
        rw [hr, parseDurItems_step fuel i.1 c u' (' ' :: joinItems (j :: rest')) accS accN
          sn.1 sn.2 hcd halpha' huv (Or.inr (by simp))]
        match fuel, hf with
        | fuel + 1, hf =>
          rw [parseDurItems_ws]
          rw [ih (fuel + 1) _ _ (by simpa using hf) (fun x hx => hg x (by simp [hx]))]
          simp [itemSecs, itemNanos, ← hiu, hsn, Nat.add_assoc]

theorem itemSecs_zero : ∀ i : Nat × List Char, i.1 = 0 → itemSecs i = 0 := by
  intro i h
  unfold itemSecs
  split <;> simp [h]

theorem itemNanos_zero : ∀ i : Nat × List Char, i.1 = 0 → itemNanos i = 0 := by
  intro i h
  unfold itemNanos
  split <;> simp [h]

theorem sum_map_filter_nz (f : Nat × List Char → Nat) (hf : ∀ i, i.1 = 0 → f i = 0) :
    ∀ items : List (Nat × List Char),
      ((items.filter (fun i => i.1 != 0)).map f).sum = (items.map f).sum := by
  intro items
  induction items with
  | nil => rfl
  | cons i rest ih =>
    rw [List.filter_cons]
    by_cases hz : i.1 = 0
    · rw [if_neg (by simp [hz]), ih, List.map_cons, List.sum_cons, hf i hz, Nat.zero_add]
    · rw [if_pos (by simpa using hz), List.map_cons, List.sum_cons, ih,
        List.map_cons, List.sum_cons]

theorem itemSecs_plural_year (v : Nat) :
    itemSecs (v, pluralUnit ['y', 'e', 'a', 'r'] v) = v * 31557600 := by
  rw [pluralUnit]; split <;> rfl

theorem itemSecs_plural_month (v : Nat) :
    itemSecs (v, pluralUnit ['m', 'o', 'n', 't', 'h'] v) = v * 2630016 := by
  rw [pluralUnit]; split <;> rfl

theorem itemSecs_plural_day (v : Nat) :
    itemSecs (v, pluralUnit ['d', 'a', 'y'] v) = v * 86400 := by
  rw [pluralUnit]; split <;> rfl

theorem itemSecs_h (v : Nat) : itemSecs (v, ['h']) = v * 3600 := rfl

theorem itemSecs_m (v : Nat) : itemSecs (v, ['m']) = v * 60 := rfl

theorem itemSecs_s (v : Nat) : itemSecs (v, ['s']) = v * 1 := rfl

theorem itemSecs_ms (v : Nat) : itemSecs (v, ['m', 's']) = v * 0 := rfl

theorem itemSecs_us (v : Nat) : itemSecs (v, ['u', 's']) = v * 0 := rfl

theorem itemSecs_ns (v : Nat) : itemSecs (v, ['n', 's']) = v * 0 := rfl

theorem itemNanos_plural_year (v : Nat) :
    itemNanos (v, pluralUnit ['y', 'e', 'a', 'r'] v) = v * 0 := by
  rw [pluralUnit]; split <;> rfl

theorem itemNanos_plural_month (v : Nat) :
    itemNanos (v, pluralUnit ['m', 'o', 'n', 't', 'h'] v) = v * 0 := by
  rw [pluralUnit]; split <;> rfl

theorem itemNanos_plural_day (v : Nat) :
    itemNanos (v, pluralUnit ['d', 'a', 'y'] v) = v * 0 := by
  rw [pluralUnit]; split <;> rfl

theorem itemNanos_h (v : Nat) : itemNanos (v, ['h']) = v * 0 := rfl

theorem itemNanos_m (v : Nat) : itemNanos (v, ['m']) = v * 0 := rfl

theorem itemNanos_s (v : Nat) : itemNanos (v, ['s']) = v * 0 := rfl

theorem itemNanos_ms (v : Nat) : itemNanos (v, ['m', 's']) = v * 1000000 := rfl

theorem itemNanos_us (v : Nat) : itemNanos (v, ['u', 's']) = v * 1000 := rfl

theorem itemNanos_ns (v : Nat) : itemNanos (v, ['n', 's']) = v * 1 := rfl

theorem goodUnit_plural_year (v : Nat) : goodUnit (pluralUnit ['y', 'e', 'a', 'r'] v) := by
  rw [pluralUnit]; split
  · decide
  · decide

theorem goodUnit_plural_month (v : Nat) : goodUnit (pluralUnit ['m', 'o', 'n', 't', 'h'] v) := by
  rw [pluralUnit]; split
  · decide
  · decide

theorem goodUnit_plural_day (v : Nat) : goodUnit (pluralUnit ['d', 'a', 'y'] v) := by
  rw [pluralUnit]; split
  · decide
  · decide

theorem joinItems_length (items : List (Nat × List Char)) :
    items.length ≤ (joinItems items).length := by
  induction items with
  | nil => simp [joinItems]
  | cons i rest ih =>
    have h1 : 1 ≤ (renderItem i).length := by
      rw [renderItem, List.length_append]
      rcases hq : natDigits i.1 with _ | ⟨c, cs⟩
      · exact absurd hq (natDigits_ne_nil i.1)
      · simp only [List.length_cons]
        omega
    rcases rest with _ | ⟨j, rest'⟩
    · show (i :: []).length ≤ (renderItem i).length
      simpa using h1
    · show (i :: j :: rest').length ≤ (renderItem i ++ ' ' :: joinItems (j :: rest')).length
      rw [List.length_append, List.length_cons]
      simp only [List.length_cons] at *
      omega

theorem joinItems_cons_shape (i : Nat × List Char) (rest : List (Nat × List Char)) :
    ∃ X, joinItems (i :: rest) = natDigits i.1 ++ X := by
  rcases rest with _ | ⟨j, rest'⟩
  · exact ⟨i.2, rfl⟩
  · refine ⟨i.2 ++ ' ' :: joinItems (j :: rest'), ?_⟩
    show renderItem i ++ ' ' :: joinItems (j :: rest') = _
    rw [renderItem, List.append_assoc]

theorem exceptMap_ok {ε α β} (f : α → β) (a : α) :
    Except.map f (Except.ok a : Except ε α) = .ok (f a) := rfl

theorem RDuration_ext (x : RDuration) (A B : Nat) (pf : B < 1000000000)
    (h1 : A = x.secs) (h2 : B = x.nanos.val) : (⟨A, ⟨B, pf⟩⟩ : RDuration) = x := by
  obtain ⟨s, ⟨nvv, hh⟩⟩ := x
  dsimp only at h1 h2
  subst h1
  subst h2
  rfl

/-- Formatting a duration with `format_duration` and parsing the result
with `parse_duration` restores the duration exactly. -/
theorem parse_format_duration (d : RDuration) : parse_duration (format_duration d) = .ok d := by
  by_cases hz : d.secs = 0 ∧ d.nanos.val = 0
  · have hf : format_duration d = String.mk ['0', 's'] := by
      rw [format_duration, formatDurChars, if_pos hz]
    rw [hf]
    have hp : parse_duration (String.mk ['0', 's']) = .ok ⟨0, ⟨0, by omega⟩⟩ := rfl
    rw [hp]
    exact congrArg Except.ok (RDuration_ext d 0 0 (by omega) hz.1.symm hz.2.symm)
  · have hgoodraw : ∀ i ∈ durItemsRaw d, goodUnit i.2 := by
      intro i hi
      simp only [durItemsRaw, List.mem_cons, List.not_mem_nil, or_false] at hi
      rcases hi with h | h | h | h | h | h | h | h | h <;> subst h
      · exact goodUnit_plural_year _
      · exact goodUnit_plural_month _
      · exact goodUnit_plural_day _
      · show goodUnit ['h']
        decide
      · show goodUnit ['m']
        decide
      · show goodUnit ['s']
        decide
      · show goodUnit ['m', 's']
        decide
      · show goodUnit ['u', 's']
        decide
      · show goodUnit ['n', 's']
        decide
    have hgood : ∀ i ∈ (durItemsRaw d).filter (fun i => i.1 != 0), goodUnit i.2 := fun i hi =>
      hgoodraw i (List.mem_of_mem_filter hi)
    have hnonnil : (durItemsRaw d).filter (fun i => i.1 != 0) ≠ [] := by
      intro hemp
      have hall := List.filter_eq_nil_iff.mp hemp
      have e1 := hall _ (show (d.secs / 31557600,
        pluralUnit ['y', 'e', 'a', 'r'] (d.secs / 31557600)) ∈ durItemsRaw d by
          simp [durItemsRaw])
      have e2 := hall _ (show (d.secs % 31557600 / 2630016,
        pluralUnit ['m', 'o', 'n', 't', 'h'] (d.secs % 31557600 / 2630016)) ∈ durItemsRaw d by
          simp [durItemsRaw])
      have e3 := hall _ (show (d.secs % 31557600 % 2630016 / 86400,
        pluralUnit ['d', 'a', 'y'] (d.secs % 31557600 % 2630016 / 86400)) ∈ durItemsRaw d by
          simp [durItemsRaw])
      have e4 := hall _ (show (d.secs % 31557600 % 2630016 % 86400 / 3600, ['h']) ∈
        durItemsRaw d by simp [durItemsRaw])
      have e5 := hall _ (show (d.secs % 31557600 % 2630016 % 86400 % 3600 / 60, ['m']) ∈
        durItemsRaw d by simp [durItemsRaw])
      have e6 := hall _ (show (d.secs % 31557600 % 2630016 % 86400 % 60, ['s']) ∈
        durItemsRaw d by simp [durItemsRaw])
      have e7 := hall _ (show (d.nanos.val / 1000000, ['m', 's']) ∈ durItemsRaw d by
        simp [durItemsRaw])
      have e8 := hall _ (show (d.nanos.val / 1000 % 1000, ['u', 's']) ∈ durItemsRaw d by
        simp [durItemsRaw])
      have e9 := hall _ (show (d.nanos.val % 1000, ['n', 's']) ∈ durItemsRaw d by
        simp [durItemsRaw])
      simp only [bne_iff_ne, ne_eq, not_not] at e1 e2 e3 e4 e5 e6 e7 e8 e9
      exact hz ⟨by omega, by omega⟩
    have hS : (((durItemsRaw d).filter (fun i => i.1 != 0)).map itemSecs).sum = d.secs := by
      rw [sum_map_filter_nz itemSecs itemSecs_zero, durItemsRaw]
      simp only [List.map_cons, List.map_nil, List.sum_cons, List.sum_nil,
        itemSecs_plural_year, itemSecs_plural_month, itemSecs_plural_day,
        itemSecs_h, itemSecs_m, itemSecs_s, itemSecs_ms, itemSecs_us, itemSecs_ns]
      omega
    have hN : (((durItemsRaw d).filter (fun i => i.1 != 0)).map itemNanos).sum =
        d.nanos.val := by
      rw [sum_map_filter_nz itemNanos itemNanos_zero, durItemsRaw]
      simp only [List.map_cons, List.map_nil, List.sum_cons, List.sum_nil,
        itemNanos_plural_year, itemNanos_plural_month, itemNanos_plural_day,
        itemNanos_h, itemNanos_m, itemNanos_s, itemNanos_ms, itemNanos_us, itemNanos_ns]
      omega
    obtain ⟨i0, rest, hcons⟩ : ∃ i0 rest,
        (durItemsRaw d).filter (fun i => i.1 != 0) = i0 :: rest := by
      rcases hq : (durItemsRaw d).filter (fun i => i.1 != 0) with _ | ⟨i0, rest⟩
      · exact absurd hq hnonnil
      · exact ⟨i0, rest, hq⟩
    have hformat : format_duration d =
        String.mk (joinItems ((durItemsRaw d).filter (fun i => i.1 != 0))) := by
      rw [format_duration, formatDurChars, if_neg hz]
    rw [hformat, parse_duration]
    have hdata : ∀ l : List Char, (String.mk l).data = l := fun _ => rfl
    rw [hdata]
    have hcond : ((joinItems ((durItemsRaw d).filter
        (fun i => i.1 != 0))).dropWhile Char.isWhitespace).isEmpty = false := by
      obtain ⟨X, hX⟩ := joinItems_cons_shape i0 rest
      rw [hcons, hX]
      rcases hq : natDigits i0.1 with _ | ⟨c0, cs0⟩
      · exact absurd hq (natDigits_ne_nil i0.1)
      · rw [List.cons_append, List.dropWhile_cons_of_neg
          (by rw [natDigits_not_ws i0.1 c0 (by rw [hq]; simp)]; simp)]
        rfl
    rw [hcond, if_neg Bool.false_ne_true]
    rw [parseDurItems_join ((durItemsRaw d).filter (fun i => i.1 != 0))
      ((joinItems ((durItemsRaw d).filter (fun i => i.1 != 0))).length + 1) 0 0
      (by have := joinItems_length ((durItemsRaw d).filter (fun i => i.1 != 0)); omega) hgood]
    rw [exceptMap_ok]
    apply congrArg Except.ok
    rw [hS, hN]
    have hlt : d.nanos.val < 1000000000 := d.nanos.isLt
    exact RDuration_ext d _ _ (Nat.mod_lt _ (by omega)) (by omega) (by omega)

/-! ## TOML tables

The serde-level view of a TOML document: a list of key/value pairs.  The
concrete TOML text syntax (escaping, layout, `[[section]]` splitting) is
the `toml` crate's concern and is inverse to itself; the embedding works
on the table it denotes.  String values that the repository parses itself
(addresses, durations) remain real strings.
-/

inductive TomlValue where
  | str (s : String)
  | int (n : Int)
  | array (elems : List TomlValue)
  | table (entries : List (String × TomlValue))

abbrev TomlTable := List (String × TomlValue)

def lookupKey : TomlTable → String → Option TomlValue
  | [], _ => none
  | (k, v) :: rest, key => if k = key then some v else lookupKey rest key

/-! ## The configuration model (`src/settings.rs`) -/

abbrev I32 := {n : Int // -2147483648 ≤ n ∧ n < 2147483648}
abbrev U64 := Fin 18446744073709551616

/-- Modelled from the spec: `PeerIdentity` lives in `src/peer.rs`, which
is not part of the provided sources.  Per §3 of the spec a peer identity
is a hostname plus a network address. -/
structure PeerIdentity where
  addr : SockAddr
  hostname : String
deriving DecidableEq

/-- `Config` from `src/settings.rs`, fields in declaration order.  `peers`
is a `HashSet` in Rust; it is embedded as a list (set iteration order is
fixed but unspecified; no claim depends on it). -/
structure Config where
  ingest_srv_addr : SockAddr
  publish_srv_addr : SockAddr
  data_dir : String
  retention : RDuration
  graphql_srv_addr : SockAddr
  log_dir : String
  export_dir : String
  max_open_files : I32
  max_mb_of_level_base : U64
  num_of_thread : I32
  max_sub_compactions : U32
  addr_to_peers : Option SockAddr
  peers : Option (List PeerIdentity)
  ack_transmission : U16
deriving DecidableEq

structure Settings where
  config : Config
  cfg_path : Option String
deriving DecidableEq

def DEFAULT_INVALID_ADDR_TO_PEERS : String := "254.254.254.254:38383"

def sentinelAddr : SockAddr := { ip := IpAddr.v4 254 254 254 254, port := 38383 }

def i64MaxNat : Nat := 9223372036854775807

def peerToToml (p : PeerIdentity) : TomlValue :=
  .table [("addr", .str (printSockAddr p.addr)), ("hostname", .str p.hostname)]

/-- `toml::to_string` applied to a `Config`: struct fields in declaration
order, `None` options omitted (the `toml` table serializer skips them),
`u64` values above `i64::MAX` unrepresentable in TOML and rejected. -/
def configToToml (c : Config) : Except String TomlTable :=
  if c.max_mb_of_level_base.val ≤ i64MaxNat then
    .ok ([("ingest_srv_addr", .str (printSockAddr c.ingest_srv_addr)),
      ("publish_srv_addr", .str (printSockAddr c.publish_srv_addr)),
      ("data_dir", .str c.data_dir),
      ("retention", .str (format_duration c.retention)),
      ("graphql_srv_addr", .str (printSockAddr c.graphql_srv_addr)),
      ("log_dir", .str c.log_dir),
      ("export_dir", .str c.export_dir),
      ("max_open_files", .int c.max_open_files.val),
      ("max_mb_of_level_base", .int (c.max_mb_of_level_base.val : Int)),
      ("num_of_thread", .int c.num_of_thread.val),
      ("max_sub_compactions", .int (c.max_sub_compactions.val : Int))]
      ++ (match c.addr_to_peers with
          | some a => [("addr_to_peers", .str (printSockAddr a))]
          | none => [])
      ++ (match c.peers with
          | some ps => [("peers", .array (ps.map peerToToml))]
          | none => [])
      ++ [("ack_transmission", .int (c.ack_transmission.val : Int))])
  else .error "out-of-range value for a TOML integer"

/-- `Settings::to_toml_string`: serializes only the `config` field. -/
def to_toml_string (s : Settings) : Except String TomlTable := configToToml s.config

/-- `deserialize_socket_addr`: deserialize a string, then parse it as a
socket address; parse failure is a format error naming the raw string. -/
def deserialize_socket_addr (v : TomlValue) : Except String SockAddr :=
  match v with
  | .str s =>
    match parseSockAddr s with
    | some a => .ok a
    | none => .error ("invalid address " ++ s)
  | _ => .error "invalid type: expected a string"

/-- `deserialize_peer_addr` plus the surrounding serde plumbing: a missing
key (the `serde(default)` path) and a TOML-level null both give `None`
without invoking the address parser; the sentinel `254.254.254.254:38383`
and the empty string normalize to `None`; anything else must parse. -/
def deserialize_peer_addr (v : Option TomlValue) : Except String (Option SockAddr) :=
  match v with
  | none => .ok none
  | some (.str addr) =>
    if addr = DEFAULT_INVALID_ADDR_TO_PEERS ∨ addr = "" then .ok none
    else
      match parseSockAddr addr with
      | some a => .ok (some a)
      | none => .error ("invalid address " ++ addr)
  | some _ => .error "invalid type: expected a string"

def reqStr (g : String → Option TomlValue) (key : String) : Except String String :=
  match g key with
  | some (.str s) => .ok s
  | some _ => .error ("invalid type for " ++ key)
  | none => .error ("missing field " ++ key)

def reqSockAddr (g : String → Option TomlValue) (key : String) : Except String SockAddr :=
  match g key with
  | some v => deserialize_socket_addr v
  | none => .error ("missing field " ++ key)

def reqDuration (g : String → Option TomlValue) (key : String) : Except String RDuration :=
  match g key with
  | some (.str s) => parse_duration s
  | some _ => .error ("invalid type for " ++ key)
  | none => .error ("missing field " ++ key)

def reqI32 (g : String → Option TomlValue) (key : String) : Except String I32 :=
  match g key with
  | some (.int n) =>
    if h : -2147483648 ≤ n ∧ n < 2147483648 then .ok ⟨n, h⟩
    else .error ("out of range: " ++ key)
  | some _ => .error ("invalid type for " ++ key)
  | none => .error ("missing field " ++ key)

def reqU64 (g : String → Option TomlValue) (key : String) : Except String U64 :=
  match g key with
  | some (.int n) =>
    if h : 0 ≤ n ∧ n < 18446744073709551616 then .ok ⟨n.toNat, by omega⟩
    else .error ("out of range: " ++ key)
  | some _ => .error ("invalid type for " ++ key)
  | none => .error ("missing field " ++ key)

def reqU32 (g : String → Option TomlValue) (key : String) : Except String U32 :=
  match g key with
  | some (.int n) =>
    if h : 0 ≤ n ∧ n < 4294967296 then .ok ⟨n.toNat, by omega⟩
    else .error ("out of range: " ++ key)
  | some _ => .error ("invalid type for " ++ key)
  | none => .error ("missing field " ++ key)

def reqU16 (g : String → Option TomlValue) (key : String) : Except String U16 :=
  match g key with
  | some (.int n) =>
    if h : 0 ≤ n ∧ n < 65536 then .ok ⟨n.toNat, by omega⟩
    else .error ("out of range: " ++ key)
  | some _ => .error ("invalid type for " ++ key)
  | none => .error ("missing field " ++ key)

def mapExcept {α β : Type} (f : α → Except String β) : List α → Except String (List β)
  | [] => .ok []
  | v :: rest => (f v).bind fun b => (mapExcept f rest).map fun bs => b :: bs

/-- One `peers` element: an inline table with `addr` and `hostname`. -/
def parsePeerEntry (v : TomlValue) : Except String PeerIdentity :=
  match v with
  | .table entries =>
    (reqSockAddr (lookupKey entries) "addr").bind fun addr =>
    (reqStr (lookupKey entries) "hostname").map fun hostname =>
      { addr := addr, hostname := hostname }
  | _ => .error "invalid type: expected a table"

def deserializePeers (v : Option TomlValue) : Except String (Option (List PeerIdentity)) :=
  match v with
  | none => .ok none
  | some (.array elems) => (mapExcept parsePeerEntry elems).map some
  | some _ => .error "invalid type: expected an array"

/-- serde deserialization of `Config` from a table reached through a
lookup function (field order is irrelevant to serde; unknown keys are
ignored since `Config` does not opt into `deny_unknown_fields`). -/
def deserializeConfigWith (g : String → Option TomlValue) : Except String Config :=
  (reqSockAddr g "ingest_srv_addr").bind fun ingest =>
  (reqSockAddr g "publish_srv_addr").bind fun publish =>
  (reqStr g "data_dir").bind fun data_dir =>
  (reqDuration g "retention").bind fun retention =>
  (reqSockAddr g "graphql_srv_addr").bind fun graphql =>
  (reqStr g "log_dir").bind fun log_dir =>
  (reqStr g "export_dir").bind fun export_dir =>
  (reqI32 g "max_open_files").bind fun max_open_files =>
  (reqU64 g "max_mb_of_level_base").bind fun max_mb =>
  (reqI32 g "num_of_thread").bind fun num_of_thread =>
  (reqU32 g "max_sub_compactions").bind fun max_sub =>
  (deserialize_peer_addr (g "addr_to_peers")).bind fun addr_to_peers =>
  (deserializePeers (g "peers")).bind fun peers =>
  (reqU16 g "ack_transmission").bind fun ack =>
  .ok { ingest_srv_addr := ingest, publish_srv_addr := publish, data_dir := data_dir,
        retention := retention, graphql_srv_addr := graphql, log_dir := log_dir,
        export_dir := export_dir, max_open_files := max_open_files,
        max_mb_of_level_base := max_mb, num_of_thread := num_of_thread,
        max_sub_compactions := max_sub, addr_to_peers := addr_to_peers,
        peers := peers, ack_transmission := ack }

/-- `toml::from_str::<Config>` as `set_config` uses it: the draft alone,
with no defaults merged, so every non-optional field must be present. -/
def config_from_str (t : TomlTable) : Except String Config :=
  deserializeConfigWith (lookupKey t)

/-- The defaults installed by `default_config_builder`.  The three
directory defaults come from `directories::ProjectDirs` and are
platform-dependent; they are modelled as fixed path strings, on which no
claim depends. -/
def default_config_table : TomlTable :=
  [("ingest_srv_addr", .str "[::]:38370"),
   ("publish_srv_addr", .str "[::]:38371"),
   ("graphql_srv_addr", .str "[::]:8442"),
   ("data_dir", .str "/var/lib/giganto/db"),
   ("retention", .str "100d"),
   ("log_dir", .str "/var/lib/giganto/logs/apps"),
   ("export_dir", .str "/var/lib/giganto/export"),
   ("max_open_files", .int 8000),
   ("max_mb_of_level_base", .int 512),
   ("num_of_thread", .int 8),
   ("max_sub_compactions", .int 2),
   ("addr_to_peers", .str DEFAULT_INVALID_ADDR_TO_PEERS),
   ("ack_transmission", .int 1024)]

/-- `Settings::from_server`: the raw text blob is layered over the
defaults (the `config` crate merge) and the merged map is deserialized;
`cfg_path` is `None`. -/
def from_server (t : TomlTable) : Except String Settings :=
  (deserializeConfigWith
      (fun k => (lookupKey t k).orElse (fun _ => lookupKey default_config_table k))).map
    fun config => { config := config, cfg_path := none }

/-! ## The administrative GraphQL surface (`src/graphql/status.rs`)

Each handler pulls its dependencies out of the request context; here they
are explicit arguments: the local-mode flag (`ctx.data::<bool>()`), the
live `Settings`, and the reload channel.  `set_config` returns both the
GraphQL result and the delivery scheduled on the reload channel (`none`
when nothing is spawned); the 100 ms delay before the send and the
fire-and-forget error logging of the spawned task have no synchronous
observable effect and are recorded in §4.3 of the spec only. -/

/-- The `config` query: denied in local mode, otherwise a clone of the
live configuration. -/
def config (is_local : Bool) (s : Settings) : Except String Config :=
  if is_local then .error "Config is local" else .ok s.config

/-- The `setConfig` mutation. -/
def set_config (is_local : Bool) (s : Settings) (draft : TomlTable) :
    Except String Bool × Option TomlTable :=
  if is_local then (.ok false, none)
  else
    match config_from_str draft with
    | .error e => (.error e, none)
    | .ok config_draft =>
      if s.config = config_draft then (.error "No changes", none)
      else (.ok true, some draft)

/-- The `ping` query. -/
def ping : Except String Bool := .ok true

/-- The one-shot notification permits (`tokio::sync::Notify`, one per
lifecycle signal): `notify_one` stores a single permit, so firings before
the waiter consumes it coalesce. -/
structure NotifyFlags where
  terminate : Bool
  reboot : Bool
  power_off : Bool
deriving DecidableEq

def notify_one (_permit : Bool) : Bool := true

/-- The `stop` mutation: fires the terminate notification and returns
true.  The local-mode flag is part of the context but never consulted. -/
def stop (_is_local : Bool) (ns : NotifyFlags) : Except String Bool × NotifyFlags :=
  (.ok true, { ns with terminate := notify_one ns.terminate })

/-- The `reboot` mutation. -/
def reboot (_is_local : Bool) (ns : NotifyFlags) : Except String Bool × NotifyFlags :=
  (.ok true, { ns with reboot := notify_one ns.reboot })

/-- The `shutdown` mutation. -/
def shutdown (_is_local : Bool) (ns : NotifyFlags) : Except String Bool × NotifyFlags :=
  (.ok true, { ns with power_off := notify_one ns.power_off })

def natToString (n : Nat) : String := String.mk (natDigits n)

/-- The GraphQL object resolution of `Config` (the `#[Object] impl Config`
block): addresses, directories and the retention render as strings,
`max_open_files`/`num_of_thread` stay native 32-bit integers,
`max_mb_of_level_base` and `max_sub_compactions` are `StringNumber`s
(decimal strings), `ack_transmission` a native 16-bit integer. -/
structure ConfigGql where
  ingest_srv_addr : String
  publish_srv_addr : String
  graphql_srv_addr : String
  retention : String
  data_dir : String
  log_dir : String
  export_dir : String
  max_open_files : Int
  max_mb_of_level_base : String
  num_of_thread : Int
  max_sub_compactions : String
  addr_to_peers : Option String
  peers : Option (List (String × String))
  ack_transmission : Nat
deriving DecidableEq

def resolve_config (c : Config) : ConfigGql :=
  { ingest_srv_addr := printSockAddr c.ingest_srv_addr,
    publish_srv_addr := printSockAddr c.publish_srv_addr,
    graphql_srv_addr := printSockAddr c.graphql_srv_addr,
    retention := format_duration c.retention,
    data_dir := c.data_dir,
    log_dir := c.log_dir,
    export_dir := c.export_dir,
    max_open_files := c.max_open_files.val,
    max_mb_of_level_base := natToString c.max_mb_of_level_base.val,
    num_of_thread := c.num_of_thread.val,
    max_sub_compactions := natToString c.max_sub_compactions.val,
    addr_to_peers := c.addr_to_peers.map printSockAddr,
    peers := c.peers.map fun ps => ps.map fun p => (printSockAddr p.addr, p.hostname),
    ack_transmission := c.ack_transmission.val }

/-! ## The document editor (`toml_edit::DocumentMut`)

A document is the observable content of a parsed TOML file: entries in
order, each carrying its key, its item and its attached decoration
(comments and formatting, which the edits below never touch).  Implicit
`Item::None` placeholders that `toml_edit` indexing can create are
invisible to `get` and to rendering and are identified with absence.
Array-of-tables items (`[[key]]` sections) are distinct from value
arrays: `as_array_mut` only succeeds on the latter. -/

inductive DocItem where
  | str (s : String)
  | int (n : Int)
  | array (elems : List DocItem)
  | inlineTable (entries : List (String × DocItem))
  | tableArray (tables : List (List (String × DocItem)))

structure DocEntry where
  key : String
  item : DocItem
  decor : String

abbrev DocumentMut := List DocEntry

def docFind : DocumentMut → String → Option DocItem
  | [], _ => none
  | e :: rest, key => if e.key = key then some e.item else docFind rest key

def DocItem.as_array : DocItem → Option (List DocItem)
  | .array elems => some elems
  | _ => none

/-- The `TomlPeers` trait of `src/graphql/status.rs`. -/
class TomlPeers (T : Type) where
  get_hostname : T → String
  get_addr : T → String

/-- Modelled from the spec: the `TomlPeers` impl for `PeerIdentity` lives
outside the provided sources; §3 exposes the address and hostname. -/
instance : TomlPeers PeerIdentity where
  get_hostname p := p.hostname
  get_addr p := printSockAddr p.addr

/-- `toml_edit::value(s).as_value()`: wrapping a string yields an
`Item::Value`, on which `as_value` always succeeds. -/
def toml_edit_str_value (s : String) : Option DocItem := some (.str s)

/-- Replacing the `peers` value array in place. -/
def docSetPeers (doc : DocumentMut) (elems : List DocItem) : DocumentMut :=
  doc.map fun e => if e.key = "peers" then { e with item := .array elems } else e

/-- The push loop of `insert_toml_peers`, starting from the cleared
array; on the (unreachable) conversion failure the partially built
array is what the document retains. -/
def buildPeerArray {T : Type} [TomlPeers T] :
    List T → List DocItem → Except String Unit × List DocItem
  | [], acc => (.ok (), acc)
  | p :: rest, acc =>
    match toml_edit_str_value (TomlPeers.get_addr p),
        toml_edit_str_value (TomlPeers.get_hostname p) with
    | some a, some h =>
      buildPeerArray rest (acc ++ [.inlineTable [("addr", a), ("hostname", h)]])
    | _, _ => (.error "insert failed: peer addr, hostname option not found.", acc)

/-- `insert_toml_peers`: `None` input is a no-op; otherwise the existing
`peers` value array is located (failing with the not-found error when the
document has none), cleared, and repopulated with one inline record per
peer. -/
def insert_toml_peers {T : Type} [TomlPeers T] (doc : DocumentMut) (input : Option (List T)) :
    Except String Unit × DocumentMut :=
  match input with
  | none => (.ok (), doc)
  | some peer_list =>
    match (docFind doc "peers").bind DocItem.as_array with
    | none => (.error "insert failed: peers option not found", doc)
    | some _ =>
      ((buildPeerArray peer_list []).1, docSetPeers doc (buildPeerArray peer_list []).2)

/-- Depth-bounded conversion of a serde-level TOML value into a document
item; the serializer output has depth at most three, so the fuel is never
exhausted on it. -/
def tomlToDocItem : Nat → TomlValue → DocItem
  | 0, _ => .str ""
  | fuel + 1, v =>
    match v with
    | .str s => .str s
    | .int n => .int n
    | .array es => .array (es.map (tomlToDocItem fuel))
    | .table en => .inlineTable (en.map fun kv => (kv.1, tomlToDocItem fuel kv.2))

def tomlAllTables : List TomlValue → Option (List (List (String × TomlValue)))
  | [] => some []
  | .table en :: rest => (tomlAllTables rest).map fun l => en :: l
  | _ => none

/-- One document entry from one serialized key/value pair.  A non-empty
array whose elements are all tables renders as `[[key]]` sections, which
parse back as an array-of-tables item; everything else stays a value. -/
def docEntryOfToml (kv : String × TomlValue) : DocEntry :=
  { key := kv.1,
    item :=
      match kv.2 with
      | .array (e :: es) =>
        match tomlAllTables (e :: es) with
        | some tables =>
          .tableArray (tables.map fun en => en.map fun kv2 => (kv2.1, tomlToDocItem 3 kv2.2))
        | none => tomlToDocItem 4 kv.2
      | _ => tomlToDocItem 4 kv.2,
    decor := "" }

/-- `settings_to_doc`: render the settings to TOML text and parse that
text into an editable document. -/
def settings_to_doc (s : Settings) : Except String DocumentMut :=
  (to_toml_string s).map fun t => t.map docEntryOfToml

/-- `write_toml_file` renders the document back to text; the text is the
document itself at this granularity.  Included for completeness. -/
def write_toml_file (doc : DocumentMut) : DocumentMut := doc

/-- `parse_toml_element_to_string`: fetch one key, requiring a string. -/
def parse_toml_element_to_string (key : String) (doc : DocumentMut) : Except String String :=
  match docFind doc key with
  | none => .error (key ++ " not found.")
  | some item =>
    match item with
    | .str s => .ok s
    | _ => .error ("parse failed: " ++ key ++ " item format is not available.")

/-! ## Serialize/parse round trip for `Config` -/

theorem exceptBind_ok {ε α β} (a : α) (f : α → Except ε β) :
    Except.bind (Except.ok a) f = f a := rfl

theorem parseSockAddr_printSockAddr (s : SockAddr) : parseSockAddr (printSockAddr s) = some s :=
  parseSockAddr_print s

theorem deserialize_socket_addr_print (a : SockAddr) :
    deserialize_socket_addr (.str (printSockAddr a)) = .ok a := by
  show (match parseSockAddr (printSockAddr a) with
    | some x => Except.ok x
    | none => Except.error ("invalid address " ++ printSockAddr a)) = Except.ok a
  rw [parseSockAddr_printSockAddr]

theorem reqStr_ok (g : String → Option TomlValue) (key : String) (s : String)
    (h : g key = some (.str s)) : reqStr g key = .ok s := by
  rw [reqStr, h]

theorem reqSockAddr_ok (g : String → Option TomlValue) (key : String) (a : SockAddr)
    (h : g key = some (.str (printSockAddr a))) : reqSockAddr g key = .ok a := by
  rw [reqSockAddr, h]
  exact deserialize_socket_addr_print a

theorem reqDuration_ok (g : String → Option TomlValue) (key : String) (d : RDuration)
    (h : g key = some (.str (format_duration d))) : reqDuration g key = .ok d := by
  rw [reqDuration, h]
  exact parse_format_duration d

theorem reqI32_ok (g : String → Option TomlValue) (key : String) (n : I32)
    (h : g key = some (.int n.val)) : reqI32 g key = .ok n := by
  rw [reqI32, h]
  show (if h : -2147483648 ≤ n.val ∧ n.val < 2147483648 then
    Except.ok (⟨n.val, h⟩ : I32) else Except.error ("out of range: " ++ key)) = Except.ok n
  rw [dif_pos n.2]

theorem reqU64_ok (g : String → Option TomlValue) (key : String) (n : U64)
    (h : g key = some (.int (n.val : Int))) : reqU64 g key = .ok n := by
  rw [reqU64, h]
  have hlt := n.isLt
  show (if h : 0 ≤ (n.val : Int) ∧ (n.val : Int) < 18446744073709551616 then
      Except.ok (⟨(n.val : Int).toNat, by omega⟩ : U64)
    else Except.error ("out of range: " ++ key)) = Except.ok n
  rw [dif_pos (by omega : 0 ≤ (n.val : Int) ∧ (n.val : Int) < 18446744073709551616)]
  apply congrArg Except.ok
  apply Fin.ext
  show ((n.val : Int)).toNat = n.val
  omega

theorem reqU32_ok (g : String → Option TomlValue) (key : String) (n : U32)
    (h : g key = some (.int (n.val : Int))) : reqU32 g key = .ok n := by
  rw [reqU32, h]
  have hlt := n.isLt
  show (if h : 0 ≤ (n.val : Int) ∧ (n.val : Int) < 4294967296 then
      Except.ok (⟨(n.val : Int).toNat, by omega⟩ : U32)
    else Except.error ("out of range: " ++ key)) = Except.ok n
  rw [dif_pos (by omega : 0 ≤ (n.val : Int) ∧ (n.val : Int) < 4294967296)]
  apply congrArg Except.ok
  apply Fin.ext
  show ((n.val : Int)).toNat = n.val
  omega

theorem reqU16_ok (g : String → Option TomlValue) (key : String) (n : U16)
    (h : g key = some (.int (n.val : Int))) : reqU16 g key = .ok n := by
  rw [reqU16, h]
  have hlt := n.isLt
  show (if h : 0 ≤ (n.val : Int) ∧ (n.val : Int) < 65536 then
      Except.ok (⟨(n.val : Int).toNat, by omega⟩ : U16)
    else Except.error ("out of range: " ++ key)) = Except.ok n
  rw [dif_pos (by omega : 0 ≤ (n.val : Int) ∧ (n.val : Int) < 65536)]
  apply congrArg Except.ok
  apply Fin.ext
  show ((n.val : Int)).toNat = n.val
  omega

theorem deserialize_peer_addr_some_ok (a : SockAddr) (ha : a ≠ sentinelAddr) :
    deserialize_peer_addr (some (.str (printSockAddr a))) = .ok (some a) := by
  show (if printSockAddr a = DEFAULT_INVALID_ADDR_TO_PEERS ∨ printSockAddr a = "" then
      Except.ok none
    else match parseSockAddr (printSockAddr a) with
      | some x => Except.ok (some x)
      | none => Except.error ("invalid address " ++ printSockAddr a)) = Except.ok (some a)
  rw [if_neg]
  · rw [parseSockAddr_printSockAddr]
  · rintro (h | h)
    · have h2 := congrArg parseSockAddr h
      rw [parseSockAddr_printSockAddr] at h2
      have hsent : parseSockAddr DEFAULT_INVALID_ADDR_TO_PEERS = some sentinelAddr := rfl
      rw [hsent] at h2
      exact ha (Option.some_inj.mp h2)
    · have h2 := congrArg parseSockAddr h
      rw [parseSockAddr_printSockAddr] at h2
      have hemp : parseSockAddr "" = none := rfl
      rw [hemp] at h2
      exact Option.noConfusion h2

theorem parsePeerEntry_peerToToml (p : PeerIdentity) : parsePeerEntry (peerToToml p) = .ok p := by
  rw [peerToToml, parsePeerEntry]
  rw [reqSockAddr_ok _ _ p.addr rfl, exceptBind_ok]
  rw [reqStr_ok _ _ p.hostname rfl]
  rfl

theorem mapExcept_peers (ps : List PeerIdentity) :
    mapExcept parsePeerEntry (ps.map peerToToml) = .ok ps := by
  induction ps with
  | nil => rfl
  | cons p rest ih =>
    rw [List.map_cons]
    rw [mapExcept]
    rw [parsePeerEntry_peerToToml, exceptBind_ok, ih]
    rfl

theorem deserializePeers_some (ps : List PeerIdentity) :
    deserializePeers (some (.array (ps.map peerToToml))) = .ok (some ps) := by
  rw [deserializePeers]
  rw [mapExcept_peers]
  rfl

theorem deserializeConfig_lookup_ok (c : Config) (g : String → Option TomlValue)
    (h1 : reqSockAddr g "ingest_srv_addr" = .ok c.ingest_srv_addr)
    (h2 : reqSockAddr g "publish_srv_addr" = .ok c.publish_srv_addr)
    (h3 : reqStr g "data_dir" = .ok c.data_dir)
    (h4 : reqDuration g "retention" = .ok c.retention)
    (h5 : reqSockAddr g "graphql_srv_addr" = .ok c.graphql_srv_addr)
    (h6 : reqStr g "log_dir" = .ok c.log_dir)
    (h7 : reqStr g "export_dir" = .ok c.export_dir)
    (h8 : reqI32 g "max_open_files" = .ok c.max_open_files)
    (h9 : reqU64 g "max_mb_of_level_base" = .ok c.max_mb_of_level_base)
    (h10 : reqI32 g "num_of_thread" = .ok c.num_of_thread)
    (h11 : reqU32 g "max_sub_compactions" = .ok c.max_sub_compactions)
    (h12 : deserialize_peer_addr (g "addr_to_peers") = .ok c.addr_to_peers)
    (h13 : deserializePeers (g "peers") = .ok c.peers)
    (h14 : reqU16 g "ack_transmission" = .ok c.ack_transmission) :
    deserializeConfigWith g = .ok c := by
  simp only [deserializeConfigWith, h1, h2, h3, h4, h5, h6, h7, h8, h9, h10, h11, h12, h13,
    h14, exceptBind_ok]

/-- Serializing a configuration and deserializing it through the
`set_config` path restores it, provided the peer endpoint is not the
sentinel value (which `deserialize_peer_addr` folds to absent). -/
theorem config_from_str_round (c : Config) (t : TomlTable)
    (hser : configToToml c = .ok t)
    (hsent : c.addr_to_peers ≠ some sentinelAddr) :
    config_from_str t = .ok c := by
  obtain ⟨a1, a2, dd, ret, a3, ld, ed, mof, mmb, nth, msc, atp, prs, ack⟩ := c
  dsimp only at hsent
  rw [configToToml] at hser
  dsimp only at hser
  split at hser
  · injection hser with ht
    subst ht
    rcases atp with _ | a <;> rcases prs with _ | ps
    · exact deserializeConfig_lookup_ok _ _
        (reqSockAddr_ok _ _ _ rfl) (reqSockAddr_ok _ _ _ rfl) (reqStr_ok _ _ _ rfl)
        (reqDuration_ok _ _ _ rfl) (reqSockAddr_ok _ _ _ rfl) (reqStr_ok _ _ _ rfl)
        (reqStr_ok _ _ _ rfl) (reqI32_ok _ _ _ rfl) (reqU64_ok _ _ _ rfl)
        (reqI32_ok _ _ _ rfl) (reqU32_ok _ _ _ rfl) rfl rfl (reqU16_ok _ _ _ rfl)
    · exact deserializeConfig_lookup_ok _ _
        (reqSockAddr_ok _ _ _ rfl) (reqSockAddr_ok _ _ _ rfl) (reqStr_ok _ _ _ rfl)
        (reqDuration_ok _ _ _ rfl) (reqSockAddr_ok _ _ _ rfl) (reqStr_ok _ _ _ rfl)
        (reqStr_ok _ _ _ rfl) (reqI32_ok _ _ _ rfl) (reqU64_ok _ _ _ rfl)
        (reqI32_ok _ _ _ rfl) (reqU32_ok _ _ _ rfl) rfl (deserializePeers_some ps)
        (reqU16_ok _ _ _ rfl)
    · exact deserializeConfig_lookup_ok _ _
        (reqSockAddr_ok _ _ _ rfl) (reqSockAddr_ok _ _ _ rfl) (reqStr_ok _ _ _ rfl)
        (reqDuration_ok _ _ _ rfl) (reqSockAddr_ok _ _ _ rfl) (reqStr_ok _ _ _ rfl)
        (reqStr_ok _ _ _ rfl) (reqI32_ok _ _ _ rfl) (reqU64_ok _ _ _ rfl)
        (reqI32_ok _ _ _ rfl) (reqU32_ok _ _ _ rfl)
        (deserialize_peer_addr_some_ok a (by intro he; exact hsent (by rw [he])))
        rfl (reqU16_ok _ _ _ rfl)
    · exact deserializeConfig_lookup_ok _ _
        (reqSockAddr_ok _ _ _ rfl) (reqSockAddr_ok _ _ _ rfl) (reqStr_ok _ _ _ rfl)
        (reqDuration_ok _ _ _ rfl) (reqSockAddr_ok _ _ _ rfl) (reqStr_ok _ _ _ rfl)
        (reqStr_ok _ _ _ rfl) (reqI32_ok _ _ _ rfl) (reqU64_ok _ _ _ rfl)
        (reqI32_ok _ _ _ rfl) (reqU32_ok _ _ _ rfl)
        (deserialize_peer_addr_some_ok a (by intro he; exact hsent (by rw [he])))
        (deserializePeers_some ps) (reqU16_ok _ _ _ rfl)
  · exact Except.noConfusion hser

/-! ## Concrete values used by witnesses and counterexamples

The configuration mirrors the repository's own test fixture
(`test_toml_content` in `src/graphql/status.rs`). -/

def peer1 : PeerIdentity :=
  { addr := { ip := IpAddr.v4 127 0 0 1, port := 60192 }, hostname := "node2" }

def exampleConfig : Config :=
  { ingest_srv_addr := { ip := IpAddr.v4 0 0 0 0, port := 38370 },
    publish_srv_addr := { ip := IpAddr.v4 0 0 0 0, port := 38371 },
    data_dir := "tests/data",
    retention := { secs := 8640000, nanos := ⟨0, by omega⟩ },
    graphql_srv_addr := { ip := IpAddr.v4 127 0 0 1, port := 8442 },
    log_dir := "/data/logs/apps",
    export_dir := "tests/export",
    max_open_files := ⟨8000, by omega⟩,
    max_mb_of_level_base := ⟨512, by omega⟩,
    num_of_thread := ⟨8, by omega⟩,
    max_sub_compactions := ⟨2, by omega⟩,
    addr_to_peers := none,
    peers := some [peer1],
    ack_transmission := ⟨1024, by omega⟩ }

def exampleSettings : Settings := { config := exampleConfig, cfg_path := none }

/-- A document with one decorated scalar entry and a `peers` value
array. -/
def peersDoc : DocumentMut :=
  [{ key := "a", item := .str "keep", decor := " # comment" },
   { key := "peers", item := .array [.str "x"], decor := " # peer list" }]

/-- A document without any `peers` array. -/
def noPeersDoc : DocumentMut := [{ key := "a", item := .str "keep", decor := "" }]

/-! ## Claims -/

/-- C2: whenever the local-mode flag is true, the `config` query fails
with the authority-denied condition for every request, and `setConfig`
returns `Ok false` for every draft — the same result for all drafts, so
the draft is never parsed nor compared — and no delivery is scheduled. -/
theorem c2_local_mode_gating (s : Settings) (draft : TomlTable) :
    config true s = .error "Config is local" ∧
    set_config true s draft = (.ok false, none) ∧
    (∀ draft2 : TomlTable, set_config true s draft = set_config true s draft2) :=
  ⟨rfl, rfl, fun _ => rfl⟩

/-- C3: deserializing the peer-endpoint field yields absent without error
when the value is exactly the sentinel `254.254.254.254:38383`, the empty
string, or the key is missing; any other string either parses as a socket
address (yielding `Some`) or produces an error. -/
theorem c3_peer_addr_sentinel_normalisation :
    deserialize_peer_addr (some (.str DEFAULT_INVALID_ADDR_TO_PEERS)) = .ok none ∧
    deserialize_peer_addr (some (.str "")) = .ok none ∧
    deserialize_peer_addr none = .ok none ∧
    (∀ s : String, s ≠ DEFAULT_INVALID_ADDR_TO_PEERS → s ≠ "" →
      (∃ a, parseSockAddr s = some a ∧
        deserialize_peer_addr (some (.str s)) = .ok (some a)) ∨
      (parseSockAddr s = none ∧
        deserialize_peer_addr (some (.str s)) = .error ("invalid address " ++ s))) := by
  refine ⟨rfl, rfl, rfl, ?_⟩
  intro s h1 h2
  have hbody : deserialize_peer_addr (some (.str s)) =
      (if s = DEFAULT_INVALID_ADDR_TO_PEERS ∨ s = "" then Except.ok none
       else match parseSockAddr s with
         | some x => Except.ok (some x)
         | none => Except.error ("invalid address " ++ s)) := rfl
  rcases hp : parseSockAddr s with _ | a
  · right
    refine ⟨rfl, ?_⟩
    rw [hbody, if_neg (by tauto), hp]
  · left
    refine ⟨a, rfl, ?_⟩
    rw [hbody, if_neg (by tauto), hp]

/-- Witness for C3 at a concrete non-sentinel address string. -/
theorem c3_peer_addr_witness :
    ("127.0.0.1:8080" : String) ≠ DEFAULT_INVALID_ADDR_TO_PEERS ∧
    ("127.0.0.1:8080" : String) ≠ "" ∧
    ((∃ a, parseSockAddr "127.0.0.1:8080" = some a ∧
        deserialize_peer_addr (some (.str "127.0.0.1:8080")) = .ok (some a)) ∨
      (parseSockAddr "127.0.0.1:8080" = none ∧
        deserialize_peer_addr (some (.str "127.0.0.1:8080")) =
          .error ("invalid address " ++ "127.0.0.1:8080"))) :=
  ⟨by decide, by decide,
    c3_peer_addr_sentinel_normalisation.2.2.2 "127.0.0.1:8080" (by decide) (by decide)⟩

/-- C8: each of `stop`, `reboot`, `shutdown` returns true on every
invocation, in both local and remote mode (their result does not depend
on the mode flag), and repeated invocation before the signal is consumed
coalesces to the same single-permit state and still returns true. -/
theorem c8_lifecycle_always_true :
    (∀ (is_local : Bool) (ns : NotifyFlags),
      (stop is_local ns).1 = .ok true ∧ (reboot is_local ns).1 = .ok true ∧
      (shutdown is_local ns).1 = .ok true) ∧
    (∀ (is_local is_local2 : Bool) (ns : NotifyFlags),
      stop is_local ns = stop is_local2 ns ∧ reboot is_local ns = reboot is_local2 ns ∧
      shutdown is_local ns = shutdown is_local2 ns) ∧
    (∀ (is_local : Bool) (ns : NotifyFlags),
      stop is_local (stop is_local ns).2 = stop is_local ns ∧
      reboot is_local (reboot is_local ns).2 = reboot is_local ns ∧
      shutdown is_local (shutdown is_local ns).2 = shutdown is_local ns) :=
  ⟨fun _ _ => ⟨rfl, rfl, rfl⟩, fun _ _ _ => ⟨rfl, rfl, rfl⟩, fun _ _ => ⟨rfl, rfl, rfl⟩⟩

/-- C9: for a Settings loaded with ack_transmission 1024, max_open_files
8000, max_mb_of_level_base 512, num_of_thread 8, max_sub_compactions 2,
the remote-mode `config` query returns exactly those values, with
`max_mb_of_level_base` and `max_sub_compactions` string-encoded and the
other three as native integers (the field types of `resolve_config`
carry the encoding). -/
theorem c9_remote_config_values :
    config false exampleSettings = .ok exampleSettings.config ∧
    (resolve_config exampleSettings.config).ack_transmission = 1024 ∧
    (resolve_config exampleSettings.config).max_open_files = 8000 ∧
    (resolve_config exampleSettings.config).max_mb_of_level_base = "512" ∧
    (resolve_config exampleSettings.config).num_of_thread = 8 ∧
    (resolve_config exampleSettings.config).max_sub_compactions = "2" :=
  ⟨rfl, rfl, rfl, rfl, rfl, rfl⟩

/-- C4: on a document that lacks a `peers` value array, replacing the
peers with any non-empty list fails with the not-found error and returns
the document unmodified — existence is validated before any mutation, so
no key is added and nothing is cleared. -/
theorem c4_replace_peers_missing_array (T : Type) [TomlPeers T] (doc : DocumentMut)
    (p : List T) (harr : (docFind doc "peers").bind DocItem.as_array = none)
    (hne : p ≠ []) :
    insert_toml_peers doc (some p) = (.error "insert failed: peers option not found", doc) := by
  simp only [insert_toml_peers, harr]

/-- Witness for C4 at a concrete document without a peers array. -/
theorem c4_replace_peers_missing_array_witness :
    ((docFind noPeersDoc "peers").bind DocItem.as_array = none) ∧
    ([peer1] ≠ ([] : List PeerIdentity)) ∧
    insert_toml_peers noPeersDoc (some [peer1]) =
      (.error "insert failed: peers option not found", noPeersDoc) :=
  ⟨rfl, by simp, c4_replace_peers_missing_array PeerIdentity noPeersDoc [peer1] rfl (by simp)⟩

/-- C5: replacing peers with `None` leaves any document identical (a
no-op, not a deletion), and replacing with `Some []` on a document that
has a peers array clears exactly that array to empty, keeping the key and
its decoration and leaving every other entry (key, value, decoration)
unchanged — the result is the entry-wise map that touches only the
`peers` item. -/
theorem c5_replace_peers_none_and_empty :
    (∀ (T : Type) (inst : TomlPeers T) (doc : DocumentMut),
      @insert_toml_peers T inst doc none = (.ok (), doc)) ∧
    (∀ (T : Type) (inst : TomlPeers T) (doc : DocumentMut) (arr : List DocItem),
      (docFind doc "peers").bind DocItem.as_array = some arr →
      @insert_toml_peers T inst doc (some []) =
        (.ok (), doc.map fun e => if e.key = "peers" then { e with item := .array [] } else e)) := by
  constructor
  · intro T inst doc
    rfl
  · intro T inst doc arr harr
    simp only [insert_toml_peers, harr]
    rfl

/-- Witness for C5 at a concrete document with comments and a peers
array. -/
theorem c5_replace_peers_witness :
    @insert_toml_peers PeerIdentity inferInstance peersDoc none = (.ok (), peersDoc) ∧
    ((docFind peersDoc "peers").bind DocItem.as_array = some [.str "x"]) ∧
    @insert_toml_peers PeerIdentity inferInstance peersDoc (some []) =
      (.ok (), peersDoc.map fun e =>
        if e.key = "peers" then { e with item := .array [] } else e) :=
  ⟨c5_replace_peers_none_and_empty.1 PeerIdentity inferInstance peersDoc, rfl,
    c5_replace_peers_none_and_empty.2 PeerIdentity inferInstance peersDoc [.str "x"] rfl⟩

/-- C10: on every document that does contain a peers value array,
replacing the peers with a list of any length succeeds — the conversion
error branch is unreachable, because wrapping a string with
`toml_edit::value` always yields a value. -/
theorem c10_insert_peers_total (T : Type) [inst : TomlPeers T] (doc : DocumentMut)
    (p : List T) (arr : List DocItem)
    (harr : (docFind doc "peers").bind DocItem.as_array = some arr) :
    (insert_toml_peers doc (some p)).1 = .ok () := by
  have hb : ∀ (l : List T) (acc : List DocItem), (buildPeerArray l acc).1 = .ok () := by
    intro l
    induction l with
    | nil => intro _; rfl
    | cons x xs ih => intro acc; exact ih _
  simp only [insert_toml_peers, harr]
  exact hb p []

/-- Witness for C10 at a concrete document and a concrete peer list. -/
theorem c10_insert_peers_total_witness :
    ((docFind peersDoc "peers").bind DocItem.as_array = some [.str "x"]) ∧
    (insert_toml_peers peersDoc (some [peer1])).1 = .ok () :=
  ⟨rfl, c10_insert_peers_total PeerIdentity peersDoc [peer1] [.str "x"] rfl⟩

def c1_wit_draft : TomlTable :=
  match to_toml_string exampleSettings with
  | .ok t => t
  | .error _ => []

def c1_cex_settings : Settings :=
  { config := { exampleConfig with addr_to_peers := some sentinelAddr }, cfg_path := none }

def c1_cex_draft : TomlTable :=
  match to_toml_string c1_cex_settings with
  | .ok t => t
  | .error _ => []

/-- C1 (counterexample): a Settings whose `addr_to_peers` is the sentinel
address serializes successfully, but resubmitting that text is NOT
rejected with the no-change error: `deserialize_peer_addr` folds the
serialized sentinel back to absent, the parsed draft differs from the
live configuration, and the proposal is accepted with a delivery
scheduled. -/
theorem c1_resubmit_sentinel_counterexample :
    to_toml_string c1_cex_settings = .ok c1_cex_draft ∧
    set_config false c1_cex_settings c1_cex_draft = (.ok true, some c1_cex_draft) :=
  ⟨rfl, rfl⟩

/-- C1 (amended): for every Settings whose configuration serializes
successfully and whose peer endpoint is not the sentinel address,
proposing the serialized text back in remote mode is parsed back to a
configuration structurally equal to the live one and rejected with the
distinguishable no-change error, with no delivery scheduled. -/
theorem c1_resubmit_noop_amended (S : Settings) (t : TomlTable)
    (hser : to_toml_string S = .ok t)
    (hsent : S.config.addr_to_peers ≠ some sentinelAddr) :
    set_config false S t = (.error "No changes", none) := by
  have hrt : config_from_str t = .ok S.config := config_from_str_round S.config t hser hsent
  show (match config_from_str t with
    | .error e => ((.error e : Except String Bool), (none : Option TomlTable))
    | .ok config_draft =>
      if S.config = config_draft then ((.error "No changes" : Except String Bool),
        (none : Option TomlTable))
      else (.ok true, some t)) = _
  rw [hrt]
  show (if S.config = S.config then ((.error "No changes" : Except String Bool),
    (none : Option TomlTable)) else (.ok true, some t)) = _
  rw [if_pos rfl]

/-- Witness for the amended C1 at the repository's test configuration. -/
theorem c1_resubmit_noop_witness :
    to_toml_string exampleSettings = .ok c1_wit_draft ∧
    exampleSettings.config.addr_to_peers ≠ some sentinelAddr ∧
    set_config false exampleSettings c1_wit_draft = (.error "No changes", none) :=
  ⟨rfl, fun h => Option.noConfusion h,
    c1_resubmit_noop_amended exampleSettings c1_wit_draft rfl (fun h => Option.noConfusion h)⟩

def requiredConfigKeys : List String :=
  ["ingest_srv_addr", "publish_srv_addr", "data_dir", "retention", "graphql_srv_addr",
   "log_dir", "export_dir", "max_open_files", "max_mb_of_level_base", "num_of_thread",
   "max_sub_compactions", "ack_transmission"]

def c6_cex_doc : DocumentMut :=
  match settings_to_doc exampleSettings with
  | .ok d => d
  | .error _ => []

def c6_cex_big_settings : Settings :=
  { config := { exampleConfig with max_mb_of_level_base := ⟨9223372036854775808, by omega⟩ },
    cfg_path := none }

/-- C6 (counterexample): rendering a Settings whose `addr_to_peers` is
absent produces a document WITHOUT an `addr_to_peers` key (the serializer
omits `None` options), and rendering fails outright when
`max_mb_of_level_base` exceeds the TOML integer range — so not every
field always appears and not every Settings renders. -/
theorem c6_render_counterexample :
    settings_to_doc exampleSettings = .ok c6_cex_doc ∧
    exampleSettings.config.addr_to_peers = none ∧
    docFind c6_cex_doc "addr_to_peers" = none ∧
    settings_to_doc c6_cex_big_settings = .error "out-of-range value for a TOML integer" :=
  ⟨rfl, rfl, rfl, rfl⟩

/-- C6 (amended): for every Settings whose `max_mb_of_level_base` fits a
TOML integer, rendering succeeds and the document contains every
non-optional Configuration field — including fields holding their
defaults — while the optional `addr_to_peers` and `peers` keys appear
exactly when the fields are present. -/
theorem c6_render_fields_amended (s : Settings)
    (hmb : s.config.max_mb_of_level_base.val ≤ i64MaxNat) :
    ∃ doc, settings_to_doc s = .ok doc ∧
      (∀ k ∈ requiredConfigKeys, (docFind doc k).isSome = true) ∧
      (docFind doc "addr_to_peers").isSome = s.config.addr_to_peers.isSome ∧
      (docFind doc "peers").isSome = s.config.peers.isSome := by
  obtain ⟨⟨a1, a2, dd, ret, a3, ld, ed, mof, mmb, nth, msc, atp, prs, ack⟩, cfgp⟩ := s
  dsimp only at hmb ⊢
  rw [settings_to_doc, to_toml_string, configToToml]
  dsimp only
  rw [if_pos hmb]
  rcases atp with _ | a <;> rcases prs with _ | ps <;>
    (refine ⟨_, rfl, ?_, rfl, rfl⟩
     intro k hk
     simp only [requiredConfigKeys, List.mem_cons, List.not_mem_nil, or_false] at hk
     rcases hk with rfl | rfl | rfl | rfl | rfl | rfl | rfl | rfl | rfl | rfl | rfl | rfl <;> rfl)

/-- Witness for the amended C6 at the repository's test configuration. -/
theorem c6_render_fields_witness :
    exampleSettings.config.max_mb_of_level_base.val ≤ i64MaxNat ∧
    (∃ doc, settings_to_doc exampleSettings = .ok doc ∧
      (∀ k ∈ requiredConfigKeys, (docFind doc k).isSome = true) ∧
      (docFind doc "addr_to_peers").isSome = exampleSettings.config.addr_to_peers.isSome ∧
      (docFind doc "peers").isSome = exampleSettings.config.peers.isSome) :=
  ⟨by decide, c6_render_fields_amended exampleSettings (by decide)⟩

/-- C7 (counterexample): the empty draft is accepted by the
from-text-blob construction (defaults fill every field), yet `setConfig`
parses the draft alone and rejects it for the missing required field — so
acceptance by `from_server` does not imply acceptance by `set_config`. -/
theorem c7_defaults_not_merged_counterexample :
    (from_server ([] : TomlTable)).isOk = true ∧
    config_from_str ([] : TomlTable) = .error "missing field ingest_srv_addr" ∧
    set_config false exampleSettings ([] : TomlTable) =
      (.error "missing field ingest_srv_addr", none) :=
  ⟨rfl, rfl, rfl⟩

/-- C7 (amended): in remote mode, a draft that fails to parse as a
Configuration makes `setConfig` return that parse error with no delivery
scheduled and no state change; the parse is of the draft alone, without
merging defaults, so a draft accepted by `from_server` may still be
rejected here. -/
theorem c7_parse_error_no_effect_amended (s : Settings) (draft : TomlTable) (e : String)
    (hp : config_from_str draft = .error e) :
    set_config false s draft = (.error e, none) := by
  show (match config_from_str draft with
    | .error e2 => ((.error e2 : Except String Bool), (none : Option TomlTable))
    | .ok config_draft =>
      if s.config = config_draft then ((.error "No changes" : Except String Bool),
        (none : Option TomlTable))
      else (.ok true, some draft)) = _
  rw [hp]

/-- Witness for the amended C7 at the empty draft. -/
theorem c7_parse_error_witness :
    config_from_str ([] : TomlTable) = .error "missing field ingest_srv_addr" ∧
    set_config false exampleSettings ([] : TomlTable) =
      (.error "missing field ingest_srv_addr", none) :=
  ⟨rfl, c7_parse_error_no_effect_amended exampleSettings [] "missing field ingest_srv_addr" rfl⟩

end Giganto
